import Mathlib

/-!
Shallow embedding of the knowledge-driven scoring and guidance engine in
`app/ark_engine/rasta_principles/jah_core.py`,
`app/ark_engine/rasta_principles/__init__.py` and
`app/ark_engine/core/controller_jah_integrated.py`.

Python floats are modelled by `ℚ`; Python `datetime` observations, the
`hashlib.md5` digest and `random.choice` are modelled as explicit
parameters, since they are external collaborators of the engine.
-/

namespace RastaImperium

/-! ## Python string semantics helpers -/

/-- Lowercase a string, as Python `str.lower` (per-character). -/
def lowerStr (s : String) : String :=
  String.mk (s.data.map Char.toLower)

/-- Does the first char list occur at the head of the second one. -/
def hasPre : List Char → List Char → Bool
| [], _ => true
| _ :: _, [] => false
| a :: as, b :: bs => a = b && hasPre as bs

/-- Does the first char list occur contiguously inside the second one. -/
def hasSub (needle : List Char) : List Char → Bool
| [] => needle.isEmpty
| b :: bs => hasPre needle (b :: bs) || hasSub needle bs

/-- Python `needle in hay` on strings (substring test). -/
def strIn (needle hay : String) : Bool :=
  hasSub needle.data hay.data

/-- Helper for `pySplit`: accumulate the current token over the chars. -/
def pySplitAux : List Char → List Char → List String
| cur, [] => if cur.isEmpty then [] else [String.mk cur.reverse]
| cur, c :: rest =>
  if c.isWhitespace then
    if cur.isEmpty then pySplitAux [] rest
    else String.mk cur.reverse :: pySplitAux [] rest
  else pySplitAux (c :: cur) rest

/-- Python `str.split()` with no argument: split on whitespace runs, dropping empties. -/
def pySplit (s : String) : List String :=
  pySplitAux [] s.data

/-- Helper for `splitLines`. -/
def splitLinesAux : List Char → List Char → List String
| cur, [] => [String.mk cur.reverse]
| cur, c :: rest =>
  if c = '\n' then String.mk cur.reverse :: splitLinesAux [] rest
  else splitLinesAux (c :: cur) rest

/-- Python `code.split("\n")`: keeps empty segments, always non-empty result. -/
def splitLines (s : String) : List String :=
  splitLinesAux [] s.data

/-- Python `len(line) - len(line.lstrip())`: the leading-whitespace width. -/
def lstripCount (s : String) : Nat :=
  (s.data.takeWhile Char.isWhitespace).length

/-- Python `line.strip()` as a string (whitespace trimmed at both ends). -/
def pyStrip (s : String) : String :=
  String.mk (((s.data.dropWhile Char.isWhitespace).reverse.dropWhile Char.isWhitespace).reverse)

/-- Truthiness of Python `line.strip()`: the line holds a non-whitespace char. -/
def isNonBlank (s : String) : Bool :=
  !(s.data.dropWhile Char.isWhitespace).isEmpty

/-- Python `s[:n]` character slice. -/
def pyTake (s : String) (n : Nat) : String :=
  String.mk (s.data.take n)

/-- Lookup in an insertion-ordered association list, as Python `dict.get(key)`. -/
def dictGet {α : Type} (key : String) : List (String × α) → Option α
| [] => none
| (k, v) :: rest => if k = key then some v else dictGet key rest

/-- Assignment into an insertion-ordered association list, as Python `d[key] = v`. -/
def dictSet {α : Type} (key : String) (v : α) : List (String × α) → List (String × α)
| [] => [(key, v)]
| (k, v1) :: rest => if k = key then (key, v) :: rest else (k, v1) :: dictSet key v rest

/-! ## `DivinePatternRecognizer` (jah_core.py) -/

/-- `self.sacred_patterns["golden_ratio"]`. -/
def goldenRatio : ℚ := 161803398875 / 100000000000

/-- `DivinePatternRecognizer._analyze_indentation_pattern`: per-non-blank-line
leading-whitespace widths, in order. -/
def analyzeIndentationPattern (lines : List String) : List Int :=
  (lines.filter (fun l => isNonBlank l)).map (fun l => (lstripCount l : Int))

/-- Loop body of `DivinePatternRecognizer._is_fibonacci_like` over the tail. -/
def isFibonacciLikeAux : Int → Int → List Int → Bool
| _, _, [] => true
| prev2, prev1, c :: rest => (c == prev1 + prev2) && isFibonacciLikeAux prev1 c rest

/-- `DivinePatternRecognizer._is_fibonacci_like`: length below 3 is never flagged,
otherwise every element from the third must equal the sum of the two before it. -/
def isFibonacciLike : List Int → Bool
| a :: b :: c :: rest => isFibonacciLikeAux a b (c :: rest)
| _ => false

/-- Loop state of `DivinePatternRecognizer._extract_function_lengths`. -/
structure FLState where
  inFunction : Bool
  lengths : List Nat
  current : Nat

/-- One line of the `_extract_function_lengths` loop. -/
def flStep (st : FLState) (line : String) : FLState :=
  let strippedLine := pyStrip line
  if hasPre "def ".data strippedLine.data || hasPre "class ".data strippedLine.data then
    { inFunction := true
      lengths := if st.inFunction && st.current > 0 then st.lengths ++ [st.current] else st.lengths
      current := 0 }
  else if st.inFunction && isNonBlank line then
    { st with current := st.current + 1 }
  else st

/-- `DivinePatternRecognizer._extract_function_lengths`: non-blank line count of each
block opened by a `def `/`class ` marker line. -/
def extractFunctionLengths (code : String) : List Nat :=
  let final := (splitLines code).foldl flStep ⟨false, [], 0⟩
  if final.inFunction && final.current > 0 then final.lengths ++ [final.current]
  else final.lengths

/-- The consecutive-length ratios loop of `_calculate_golden_ratio_alignment`:
`lengths[i] / lengths[i-1]`, skipped when the previous length is `0`. -/
def ratiosOf : List Nat → List ℚ
| a :: b :: rest => (if 0 < a then [(b : ℚ) / (a : ℚ)] else []) ++ ratiosOf (b :: rest)
| _ => []

/-- `DivinePatternRecognizer._calculate_golden_ratio_alignment`. -/
def calculateGoldenRatioAlignment (lengths : List Nat) : ℚ :=
  if lengths.length < 2 then 0
  else
    let ratios := ratiosOf lengths
    if ratios.isEmpty then 0
    else
      let deviations := ratios.map (fun r => |r - goldenRatio|)
      let avgDeviation := deviations.sum / (deviations.length : ℚ)
      min 1 (1 / (1 + avgDeviation))

/-- `self.divine_indicators`, in source dict order. -/
def divineIndicators : List (String × List String) :=
  [("balance", ["symmetry", "equilibrium", "harmony", "proportion"]),
   ("order", ["pattern", "sequence", "structure", "organization"]),
   ("beauty", ["elegance", "simplicity", "grace", "clarity"]),
   ("life", ["growth", "evolution", "adaptation", "renewal"]),
   ("unity", ["connection", "integration", "wholeness", "oneness"])]

/-- Inner keyword loop of the divine-indicator scan. -/
def indicatorStep (codeLower : String) (acc : List String) (p : String × List String) : List String :=
  p.2.foldl
    (fun acc2 kw =>
      if strIn kw codeLower && !acc2.contains p.1 then acc2 ++ [p.1] else acc2)
    acc

/-- The divine-indicator scan of `analyze_code_for_divine_patterns`. -/
def findDivineIndicators (codeLower : String) : List String :=
  divineIndicators.foldl (indicatorStep codeLower) []

/-- Result mapping of `DivinePatternRecognizer.analyze_code_for_divine_patterns`. -/
structure PatternAnalysis where
  sacred_patterns_found : List String
  divine_indicators : List String
  pattern_scores : List (String × ℚ)
  divine_alignment_score : ℚ
deriving DecidableEq

/-- The `sacred_patterns_found` and `pattern_scores` part of
`analyze_code_for_divine_patterns`, accumulated in source order. -/
def patternsAndScores (code : String) : List String × List (String × ℚ) :=
  let lines := splitLines code
  if !lines.isEmpty then
    let indentLevels := analyzeIndentationPattern lines
    let p1 : List String :=
      if isFibonacciLike indentLevels then ["fibonacci_indentation"] else []
    let s1 : List (String × ℚ) :=
      if isFibonacciLike indentLevels then [("fibonacci_indentation", (8 : ℚ) / 10)] else []
    let functionLengths := extractFunctionLengths code
    if !functionLengths.isEmpty then
      let goldenScore := calculateGoldenRatioAlignment functionLengths
      let s2 := s1 ++ [("golden_ratio_alignment", goldenScore)]
      let p2 := if goldenScore > (7 : ℚ) / 10 then p1 ++ ["golden_ratio_pattern"] else p1
      (p2, s2)
    else (p1, s1)
  else ([], [])

/-- `DivinePatternRecognizer.analyze_code_for_divine_patterns`. -/
def analyzeCodeForDivinePatterns (code : String) : PatternAnalysis :=
  let ps := patternsAndScores code
  { sacred_patterns_found := ps.1
    divine_indicators := findDivineIndicators (lowerStr code)
    pattern_scores := ps.2
    divine_alignment_score :=
      if !ps.2.isEmpty then (ps.2.map Prod.snd).sum / (ps.2.length : ℚ) else 0 }

/-! ## `ScripturalWisdom` (jah_core.py) -/

/-- `self.wisdom_database`: an insertion-ordered mapping from book name to its maxims. -/
def wisdomDatabase : List (String × List String) :=
  [("Psalms",
    ["The Earth is Jah\x27s and the fullness thereof",
     "Blessed is the man that walketh not in the counsel of the ungodly",
     "He that dwelleth in the secret place of the most High",
     "The Lord is my shepherd; I shall not want",
     "Create in me a clean heart, O God"]),
   ("Proverbs",
    ["The fear of the Lord is the beginning of wisdom",
     "Trust in the Lord with all thine heart",
     "Wisdom is the principal thing; therefore get wisdom",
     "A soft answer turneth away wrath",
     "Where there is no vision, the people perish"]),
   ("Ecclesiastes",
    ["To every thing there is a season",
     "Vanity of vanities, saith the Preacher",
     "The sun also ariseth, and the sun goeth down",
     "Two are better than one",
     "Remember now thy Creator in the days of thy youth"]),
   ("Isaiah",
    ["They that wait upon the Lord shall renew their strength",
     "The wolf also shall dwell with the lamb",
     "How beautiful upon the mountains are the feet of him",
     "For my thoughts are not your thoughts",
     "Comfort ye, comfort ye my people"]),
   ("Rasta_Wisdom",
    ["Jah live inna I and I",
     "Love and unity is the key",
     "Give thanks and praise to the Most High",
     "Inity, not vanity",
     "Overstand, don\x27t just understand",
     "Livity is the way of life",
     "Ital is vital",
     "No hurt, no harm in the heart",
     "Peace and love within the community",
     "Respect for all of Jah creation"])]

/-- `self.coding_application`: maxim to application annotation. -/
def codingApplication : List (String × String) :=
  [("The Earth is Jah\x27s and the fullness thereof",
    "Code should respect natural systems and environmental impact"),
   ("The fear of the Lord is the beginning of wisdom",
    "Humility before complexity brings true understanding"),
   ("To every thing there is a season",
    "Choose the right technology for the right time"),
   ("They that wait upon the Lord shall renew their strength",
    "Patience in debugging leads to better solutions"),
   ("Jah live inna I and I", "Divine wisdom exists within every programmer"),
   ("Love and unity is the key", "Collaborative coding creates better systems"),
   ("Overstand, don\x27t just understand", "Deep comprehension beyond surface knowledge"),
   ("Ital is vital", "Clean, natural code is essential for health"),
   ("No hurt, no harm in the heart", "Code should not cause harm to users"),
   ("Respect for all of Jah creation", "Inclusive design for all people")]

/-- `ScripturalWisdom._calculate_relevance`: fraction of the keywords occurring as
substrings of the lowercased maxim, `0.0` on an empty keyword list. -/
def calculateRelevance (wisdom : String) (keywords : List String) : ℚ :=
  if keywords.isEmpty then 0
  else ((keywords.filter (fun k => strIn k (lowerStr wisdom))).length : ℚ) / (keywords.length : ℚ)

/-- One entry of the `relevant` list built by `get_wisdom_for_situation`. -/
structure WisdomEntry where
  wisdom : String
  book : String
  application : String
  relevance_score : ℚ
deriving DecidableEq

/-- Inner loop body of `get_wisdom_for_situation`: append the entry when some
keyword occurs in the lowercased maxim. -/
def relevantStep (keywords : List String) (book : String) (acc : List WisdomEntry)
    (w : String) : List WisdomEntry :=
  if keywords.any (fun k => strIn k (lowerStr w)) then
    acc ++ [{ wisdom := w
              book := book
              application := (dictGet w codingApplication).getD "Apply divine wisdom"
              relevance_score := calculateRelevance w keywords }]
  else acc

/-- The `relevant` list of `get_wisdom_for_situation`, in corpus insertion order. -/
def relevantEntries (keywords : List String) : List WisdomEntry :=
  wisdomDatabase.foldl (fun acc bw => bw.2.foldl (relevantStep keywords bw.1) acc) []

/-- Stable insertion used to model Python `list.sort(key=relevance, reverse=True)`:
an element moves left past strictly smaller scores only, so ties keep
insertion order. -/
def insertByScore (x : WisdomEntry) : List WisdomEntry → List WisdomEntry
| [] => [x]
| y :: ys => if x.relevance_score > y.relevance_score then x :: y :: ys else y :: insertByScore x ys

/-- Stable descending sort by `relevance_score`. -/
def sortByScoreDesc (l : List WisdomEntry) : List WisdomEntry :=
  l.foldl (fun acc x => insertByScore x acc) []

/-- Result mapping of `ScripturalWisdom.get_wisdom_for_situation`. -/
structure WisdomResult where
  situation : String
  guidance : List WisdomEntry
  blessing : String
  meditation : String
deriving DecidableEq

/-- `ScripturalWisdom.get_wisdom_for_situation`. -/
def getWisdomForSituation (situation : String) : WisdomResult :=
  let keywords := pySplit (lowerStr situation)
  let relevant := sortByScoreDesc (relevantEntries keywords)
  { situation := situation
    guidance := relevant.take 3
    blessing := "Jah guide your coding journey with wisdom and understanding"
    meditation := "Consider how this wisdom applies to your code and life" }

/-- Total number of corpus maxims (the corpus size of the spec). -/
def wisdomCount : Nat :=
  (wisdomDatabase.map (fun p => p.2.length)).sum

/-! ## Enumerations (jah_core.py) -/

/-- `DivinePrinciple` enum. -/
inductive DivinePrinciple
| divine_order
| infinite_wisdom
| universal_love
| natural_law
| divine_timing
| cosmic_balance
| sacred_pattern
| spiritual_guidance
| universal_truth
| divine_creation
deriving DecidableEq

/-- `DivineRevelationLevel` enum, constructors in declaration (depth) order. -/
inductive DivineRevelationLevel
| human_understanding
| spiritual_insight
| divine_revelation
| mystical_knowledge
| cosmic_consciousness
deriving DecidableEq, Fintype

/-- The string payload of each `DivineRevelationLevel` member. -/
def DivineRevelationLevel.value : DivineRevelationLevel → String
| .human_understanding => "human_understanding"
| .spiritual_insight => "spiritual_insight"
| .divine_revelation => "divine_revelation"
| .mystical_knowledge => "mystical_knowledge"
| .cosmic_consciousness => "cosmic_consciousness"

/-- Position of each level in the declared total order. -/
def DivineRevelationLevel.idx : DivineRevelationLevel → Nat
| .human_understanding => 0
| .spiritual_insight => 1
| .divine_revelation => 2
| .mystical_knowledge => 3
| .cosmic_consciousness => 4

/-- Python `DivineRevelationLevel(value)` wrapped in `try`: `none` models the
`ValueError` branch on an unrecognized string. -/
def revelationLevelOfString (s : String) : Option DivineRevelationLevel :=
  if s = "human_understanding" then some .human_understanding
  else if s = "spiritual_insight" then some .spiritual_insight
  else if s = "divine_revelation" then some .divine_revelation
  else if s = "mystical_knowledge" then some .mystical_knowledge
  else if s = "cosmic_consciousness" then some .cosmic_consciousness
  else none

/-! ## `MysticalCodeOracle` (jah_core.py) -/

/-- A guidance record (`JahWisdom` dataclass). Timestamps are the observed
iso strings of the external clock. -/
structure JahWisdom where
  message : String
  principle : DivinePrinciple
  revelation_level : DivineRevelationLevel
  timestamp : String
  confirmation_signs : List String
  scriptural_reference : Option String
  meditation_focus : Option String
deriving DecidableEq

/-- The observations of the external `datetime` clock used by the engine. -/
structure PyTime where
  dateIso : String
  iso : String
  utcIso : String
  weekdayName : String
  hour : Nat
  minute : Nat
deriving DecidableEq

/-- A context mapping as the oracle observes it: its `str()` representation and
its optional `line_count` entry. -/
structure PyCtx where
  reprStr : String
  line_count : Option Int
deriving DecidableEq

/-- `self.sacred_numbers` of `MysticalCodeOracle`, keyed by integer. -/
def sacredNumbers : List (Nat × String) :=
  [(3, "Trinity - Body, Mind, Spirit"),
   (7, "Divine perfection and completion"),
   (12, "Divine government and perfect foundation"),
   (40, "Testing, trial, probation"),
   (144, "Divine government and chosen people"),
   (153, "Divine election and grace"),
   (666, "Warning - imperfection, falling short"),
   (888, "Jesus - salvation and redemption")]

/-- Lookup in a `Nat`-keyed insertion-ordered mapping, as Python `dict.get`. -/
def natGet {α : Type} (key : Nat) : List (Nat × α) → Option α
| [] => none
| (k, v) :: rest => if k = key then some v else natGet key rest

/-- The `principle_mapping` dict of `_extract_principles`, in source order. -/
def principleMapping : List (String × DivinePrinciple) :=
  [("order", .divine_order),
   ("wisdom", .infinite_wisdom),
   ("love", .universal_love),
   ("natural", .natural_law),
   ("time", .divine_timing),
   ("balance", .cosmic_balance),
   ("pattern", .sacred_pattern),
   ("guide", .spiritual_guidance),
   ("truth", .universal_truth),
   ("create", .divine_creation)]

/-- `MysticalCodeOracle._extract_principles`. -/
def extractPrinciples (question : String) : List DivinePrinciple :=
  let questionLower := lowerStr question
  let principles :=
    principleMapping.foldl
      (fun acc p => if strIn p.1 questionLower then acc ++ [p.2] else acc) []
  if principles.isEmpty then [.divine_order] else principles

/-- `MysticalCodeOracle._find_divine_signs`. -/
def findDivineSigns (context : PyCtx) (now : PyTime) : List String :=
  let signs : List String :=
    if now.minute = 11 || now.minute = 22 || now.minute = 33 then
      ["Master number minute " ++ toString now.minute ++ ": Spiritual insight"]
    else []
  match context.line_count with
  | some lineCount =>
      if lineCount % 7 = 0 then
        signs ++ ["Divine perfection: " ++ toString lineCount ++ " lines (multiple of 7)"]
      else signs
  | none => signs

/-- The `principle_messages` dict of `_generate_wisdom_message` (only five
principles have entries). -/
def principleMessages : DivinePrinciple → Option (List String)
| .divine_order =>
  some ["All things in divine order - structure your code with purpose",
        "Divine arrangement brings clarity - organize with intention",
        "Order precedes power - structure enables function"]
| .infinite_wisdom =>
  some ["Seek wisdom from the infinite source within",
        "Divine wisdom flows through the humble coder",
        "Knowledge comes, wisdom lingers - seek deep understanding"]
| .universal_love =>
  some ["Code with love, for all are connected",
        "Love is the foundation of all creation - including code",
        "Let love guide every keystroke and decision"]
| .natural_law =>
  some ["Align with natural laws in your code design",
        "Nature\x27s patterns are divine blueprints",
        "Code in harmony with universal principles"]
| .divine_timing =>
  some ["Everything in its perfect timing - patience yields perfection",
        "Divine timing brings synchronicity to your coding journey",
        "Wait on Jah - the right solution appears at the right time"]
| _ => none

/-- The external collaborators of `seek_guidance`: the `hashlib.md5` hex digest
(a list of hex digit values) and the two `random.choice` draws. -/
structure OracleParams where
  md5hex : String → List Nat
  pickPrinciple : List DivinePrinciple → DivinePrinciple
  pickMessage : List String → String

/-- `int(question_hash[:3], 16)`: value of a hex digit list read left to right. -/
def hexPrefixVal (ds : List Nat) : Nat :=
  ds.foldl (fun a d => 16 * a + d) 0

/-- The deterministic selector derivation of `seek_guidance`:
`int(md5(question).hexdigest()[:3], 16) % 1000`. -/
def sacredNumberOf (md5hex : String → List Nat) (question : String) : Nat :=
  hexPrefixVal ((md5hex question).take 3) % 1000

/-- `MysticalCodeOracle._generate_wisdom_message`. -/
def generateWisdomMessage (P : OracleParams) (principles : List DivinePrinciple)
    (sacredNumber : Nat) : String :=
  let messageBase :=
    if !principles.isEmpty then
      let principle := P.pickPrinciple principles
      P.pickMessage ((principleMessages principle).getD ["Jah guide your path"])
    else
      P.pickMessage ["Seek and you shall find", "Ask and it shall be given"]
  let numberMeaning := (natGet (sacredNumber % 100) sacredNumbers).getD "Divine mystery"
  messageBase ++ ". Sacred number " ++ toString sacredNumber ++ " whispers: " ++ numberMeaning

/-- `MysticalCodeOracle._determine_revelation_level`. -/
def determineRevelationLevel (question : String) (context : PyCtx) : DivineRevelationLevel :=
  let questionLength := question.data.length
  if strIn "why" (lowerStr question) && questionLength > 50 then .mystical_knowledge
  else if strIn "how" (lowerStr question) && strIn "complex" (lowerStr context.reprStr) then
    .divine_revelation
  else if strIn "what" (lowerStr question) && questionLength > 30 then .spiritual_insight
  else .human_understanding

/-- The `references` dict of `_get_scriptural_reference`. -/
def scripturalReferences : DivinePrinciple → String
| .divine_order => "Genesis 1 - In the beginning"
| .infinite_wisdom => "Proverbs 2:6 - For the Lord giveth wisdom"
| .universal_love => "1 John 4:8 - God is love"
| .natural_law => "Romans 1:20 - The invisible things of him"
| .divine_timing => "Ecclesiastes 3:1 - To everything there is a season"
| .cosmic_balance => "Psalm 75:3 - The earth and all the inhabitants"
| .sacred_pattern => "Exodus 25:40 - According to the pattern"
| .spiritual_guidance => "Psalm 32:8 - I will instruct thee and teach thee"
| .universal_truth => "John 14:6 - I am the way, the truth, and the life"
| .divine_creation => "Colossians 1:16 - For by him were all things created"

/-- `MysticalCodeOracle._get_scriptural_reference`. -/
def getScripturalReference (principles : List DivinePrinciple) : String :=
  match principles with
  | p :: _ => scripturalReferences p
  | [] => "Proverbs 3:5-6 - Trust in the Lord with all thine heart"

/-- `MysticalCodeOracle.seek_guidance`, returning the fresh `JahWisdom` record and
the oracle revelation history with the record appended. -/
def seekGuidance (P : OracleParams) (now : PyTime) (question : String) (context : PyCtx)
    (history : List JahWisdom) : JahWisdom × List JahWisdom :=
  let principles := extractPrinciples question
  let signs := findDivineSigns context now
  let sacredNumber := sacredNumberOf P.md5hex question
  let numberMeaning := (natGet sacredNumber sacredNumbers).getD "Divine mystery"
  let wisdomMessage := generateWisdomMessage P principles sacredNumber
  let revelationLevel := determineRevelationLevel question context
  let scripturalRef := getScripturalReference principles
  let wisdom : JahWisdom :=
    { message := wisdomMessage
      principle := principles.headD .divine_order
      revelation_level := revelationLevel
      timestamp := now.utcIso
      confirmation_signs := signs
      scriptural_reference := some scripturalRef
      meditation_focus :=
        some ("Meditate on sacred number " ++ toString sacredNumber ++ ": " ++ numberMeaning) }
  (wisdom, history ++ [wisdom])

/-! ## `JahConsciousARKController._calculate_divine_alignment_score` -/

/-- The `guidance_alignment` mapping of `_calculate_divine_alignment_score`:
parse the level string, score it on the fixed scale, `0.5` when unrecognized. -/
def levelScores : DivineRevelationLevel → ℚ
| .human_understanding => 3 / 10
| .spiritual_insight => 6 / 10
| .divine_revelation => 8 / 10
| .mystical_knowledge => 9 / 10
| .cosmic_consciousness => 1

/-- `level_scores.get(revelation_level, 0.5)` after the parse attempt. -/
def guidanceAlignmentOf (revelationLevel : String) : ℚ :=
  match revelationLevelOfString revelationLevel with
  | some l => levelScores l
  | none => 1 / 2

/-- `pattern_analysis.get("divine_alignment_score", 0.0)`: `none` models an empty
pattern-analysis dict. -/
def patternAlignmentOf (patternAnalysis : Option PatternAnalysis) : ℚ :=
  (patternAnalysis.map (fun pa => pa.divine_alignment_score)).getD 0

/-- The `scriptural_alignment` computation: mean of the guidance entries'
relevance scores, `0.5` when the guidance list is absent or empty. -/
def scripturalAlignmentOf (scripturalWisdom : Option WisdomResult) : ℚ :=
  match scripturalWisdom with
  | some sw =>
      if !sw.guidance.isEmpty then
        let relevanceScores := sw.guidance.map (fun g => g.relevance_score)
        if !relevanceScores.isEmpty then
          relevanceScores.sum / (relevanceScores.length : ℚ)
        else 0
      else 1 / 2
  | none => 1 / 2

/-- `modification.harmony_score or 0.5`: Python `or` semantics, so both `None`
and the falsy `0.0` fall back to `0.5`. -/
def vibrationAlignmentOf (harmony : Option ℚ) : ℚ :=
  match harmony with
  | some h => if h = 0 then 1 / 2 else h
  | none => 1 / 2

/-- `JahConsciousARKController._calculate_divine_alignment_score`. The pattern
analysis and scriptural wisdom arguments are `none` when the caller passed an
empty dict. -/
def calculateDivineAlignmentScore (harmony : Option ℚ) (patternAnalysis : Option PatternAnalysis)
    (scripturalWisdom : Option WisdomResult) (revelationLevel : String) : List (String × ℚ) :=
  let scores : List (String × ℚ) :=
    [("pattern_alignment", patternAlignmentOf patternAnalysis),
     ("scriptural_alignment", scripturalAlignmentOf scripturalWisdom),
     ("vibration_alignment", vibrationAlignmentOf harmony),
     ("guidance_alignment", guidanceAlignmentOf revelationLevel)]
  scores ++ [("overall_divine_alignment", (scores.map Prod.snd).sum / (scores.length : ℚ))]

/-! ## `SacredCodingRitual` (jah_core.py) -/

/-- A ritual context mapping (string-valued entries are the only ones read). -/
def RCtx : Type := List (String × String)

/-- The empty context mapping. -/
def emptyRCtx : RCtx := []

/-- `SacredCodingRitual._interpret_sacred_time`. -/
def interpretSacredTime (now : PyTime) : String :=
  let hourMeanings : List String :=
    if now.hour = 3 then ["Hour of spiritual awakening"]
    else if now.hour = 6 then ["Hour of new beginnings"]
    else if now.hour = 9 then ["Hour of completion"]
    else if now.hour = 12 then ["Hour of divine clarity"]
    else if now.hour = 15 then ["Hour of transformation"]
    else if now.hour = 18 then ["Hour of reflection"]
    else if now.hour = 21 then ["Hour of inspiration"]
    else if now.hour = 0 then ["Hour of renewal"]
    else []
  let minuteMeanings : List String :=
    if now.minute = 11 then ["Master number 11: Spiritual insight"]
    else if now.minute = 22 then ["Master number 22: Master builder energy"]
    else if now.minute = 33 then ["Master number 33: Christ consciousness"]
    else []
  let meanings := hourMeanings ++ minuteMeanings
  if meanings.isEmpty then "Divine moment for creation"
  else String.intercalate " | " meanings

/-- The structured record a ritual function returns, one constructor per ritual. -/
inductive RitualData
| morning (time prayer : String) (affirmations : List String)
    (hour minute : Nat) (meaning : String) (instructions : List String)
| blessing (module prayer : String) (gestures protections : List String)
| debugging (issue guidance : String) (perspective steps : List String)
| completion (accomplishment prayer : String) (gratitude actions : List String)
| evening (time prayer : String) (questions release dreams : List String)
deriving DecidableEq

/-- `SacredCodingRitual._morning_dedication` (the context argument is unused). -/
def morningDedication (_context : RCtx) (now : PyTime) : RitualData :=
  .morning now.iso
    ("Most High Jah, I dedicate this day\x27s work to you.\n"
      ++ "Guide my hands as I write code.\n"
      ++ "Illuminate my mind with divine wisdom.\n"
      ++ "Let my work serve the highest good.\n"
      ++ "May my code bring blessing, not burden.\n"
      ++ "Inity, love, and peace guide my every line.\n"
      ++ "Give thanks and praise! 🙏")
    ["I code with divine guidance",
     "My work serves a higher purpose",
     "Wisdom flows through me",
     "I create with love and intention",
     "My code brings positive change"]
    now.hour now.minute (interpretSacredTime now)
    ["Take 3 deep breaths before starting",
     "Set positive intention for the day",
     "Give thanks for the ability to code",
     "Commit to serving through your work"]

/-- `SacredCodingRitual._code_blessing`. -/
def codeBlessing (context : RCtx) (_now : PyTime) : RitualData :=
  let moduleName := (dictGet "module_name" context).getD "unknown"
  .blessing moduleName
    ("Jah bless this code module \x27" ++ moduleName ++ "\x27.\n"
      ++ "May it function with divine perfection.\n"
      ++ "May it serve with unconditional love.\n"
      ++ "May it endure with eternal wisdom.\n"
      ++ "May it connect with universal harmony.\n"
      ++ "Let no bug or error corrupt its purpose.\n"
      ++ "Let only good come from its execution.\n"
      ++ "Blessed be this creation in Jah name. 🙏")
    ["Visualize light filling the code",
     "Place hands on keyboard with intention",
     "Speak blessing aloud",
     "Give thanks for successful creation"]
    ["This code is protected by divine love",
     "Only positive energy interacts with this module",
     "Errors transform into learning opportunities",
     "This creation serves the highest good"]

/-- `SacredCodingRitual._debugging_meditation`. -/
def debuggingMeditation (context : RCtx) (_now : PyTime) : RitualData :=
  let issue := (dictGet "issue" context).getD "unknown problem"
  .debugging issue
    ("Breathe deeply and center yourself.\n"
      ++ "See the problem \x27" ++ issue ++ "\x27 not as enemy, but as teacher.\n"
      ++ "Ask for divine insight into the solution.\n"
      ++ "Visualize the code flowing with perfect harmony.\n"
      ++ "Release frustration, embrace understanding.\n"
      ++ "Know that the solution already exists in divine mind.\n"
      ++ "Allow it to reveal itself through you.")
    ["Every bug is an opportunity for growth",
     "Complex problems reveal deeper patterns",
     "Patience in debugging builds spiritual strength",
     "The solution often comes when we release struggle"]
    ["Step away and take 7 deep breaths",
     "Ask for divine guidance in solving",
     "Look for patterns rather than just errors",
     "Trust that the answer will come",
     "Give thanks for the learning opportunity"]

/-- `SacredCodingRitual._completion_thanksgiving`. -/
def completionThanksgiving (context : RCtx) (_now : PyTime) : RitualData :=
  let accomplishment := (dictGet "accomplishment" context).getD "coding work"
  .completion accomplishment
    ("Give thanks to the Most High!\n"
      ++ "For completion of \x27" ++ accomplishment ++ "\x27.\n"
      ++ "For wisdom received and applied.\n"
      ++ "For challenges overcome and lessons learned.\n"
      ++ "For the ability to create and serve.\n"
      ++ "Jah guidance made this possible.\n"
      ++ "All glory and honor to the Divine.\n"
      ++ "Give thanks and praise! 🙏🌈")
    ["Grateful for the opportunity to code",
     "Thankful for lessons learned",
     "Appreciative of challenges that made me grow",
     "Blessed to create something useful",
     "Humbled by the gift of understanding"]
    ["Take a moment to appreciate your work",
     "Share your accomplishment with community",
     "Offer help to others based on what you learned",
     "Rest and rejuvenate for next creation"]

/-- `SacredCodingRitual._evening_reflection` (the context argument is unused). -/
def eveningReflection (_context : RCtx) (now : PyTime) : RitualData :=
  .evening now.iso
    ("As the day ends, I reflect on my coding journey.\n"
      ++ "I release all mistakes to divine forgiveness.\n"
      ++ "I receive all lessons with gratitude.\n"
      ++ "I celebrate all successes with humility.\n"
      ++ "I prepare for rest and renewal.\n"
      ++ "Tomorrow brings new opportunities for creation.\n"
      ++ "Jah guide my dreams with inspiration.\n"
      ++ "Peace and love fill my heart. 🙏")
    ["What did I create today that serves others?",
     "What lesson did I learn that made me wiser?",
     "How did I contribute to community today?",
     "What will I do differently tomorrow?",
     "What am I most grateful for today?"]
    ["Write down one challenge to release",
     "Breathe it out on the exhale",
     "Visualize it transforming into wisdom",
     "Give thanks for the growth it brought",
     "Set intention for peaceful rest"]
    ["Ask for divine inspiration in dreams",
     "Set intention to receive coding insights",
     "Trust that solutions come in stillness",
     "Welcome creative visions during rest"]

/-- `self.ritual_steps`: the fixed registry, in source insertion order. -/
def ritualSteps : List (String × (RCtx → PyTime → RitualData)) :=
  [("morning_dedication", morningDedication),
   ("code_blessing", codeBlessing),
   ("debugging_meditation", debuggingMeditation),
   ("completion_thanksgiving", completionThanksgiving),
   ("evening_reflection", eveningReflection)]

/-- Result of `perform_ritual`: an error record for an unknown name, or the
ritual record itself. -/
inductive RitualOutcome
| error (msg : String)
| record (data : RitualData)
deriving DecidableEq

/-- `SacredCodingRitual.perform_ritual`: an unknown name yields the error record,
a registered name invokes its function with `context or {}`. -/
def performRitual (ritualName : String) (context : Option RCtx) (now : PyTime) : RitualOutcome :=
  match dictGet ritualName ritualSteps with
  | none => .error ("Unknown ritual: " ++ ritualName)
  | some f => .record (f (context.getD emptyRCtx) now)

/-! ## `JahConsciousnessSystem.perform_daily_practice` and the controller flow -/

/-- The constant `evening_intent` mapping of `perform_daily_practice`. -/
structure EveningIntention where
  practice : String
  affirmation : String
  questions : List String
deriving DecidableEq

/-- The `evening_intent` value. -/
def eveningIntention : EveningIntention :=
  { practice := "evening_intention_setting"
    affirmation :=
      "I complete this day with gratitude and prepare for divine inspiration in rest"
    questions :=
      ["How will I serve through my code today?",
       "What wisdom do I seek today?",
       "How will I share what I learn?"] }

/-- The composite record `perform_daily_practice` returns. -/
structure PracticeRecord where
  date : String
  daily_practices : List RitualOutcome
  scripture : WisdomResult
  guidance : JahWisdom
  evening_intention : EveningIntention
  blessing : String
deriving DecidableEq

/-- Mutable state of one `JahConsciousnessSystem`: its oracle revelation history
(the only field the daily practice mutates). -/
structure JahSystemState where
  oracleHistory : List JahWisdom
deriving DecidableEq

/-- The `str()` representation of the context dict built by
`perform_daily_practice` for its `seek_guidance` call. -/
def dailyCtx (now : PyTime) : PyCtx :=
  { reprStr :=
      "\x7b\x27day\x27: \x27" ++ now.weekdayName
        ++ "\x27, \x27focus\x27: \x27service through code\x27\x7d"
    line_count := none }

/-- `JahConsciousnessSystem.perform_daily_practice`: one morning ritual, one
scriptural pass, one oracle `seek_guidance` call (appending to the oracle
history), plus fixed payload fields. -/
def performDailyPractice (P : OracleParams) (now : PyTime) (st : JahSystemState) :
    PracticeRecord × JahSystemState :=
  let morning := performRitual "morning_dedication" none now
  let dailyScripture := getWisdomForSituation ("Coding work on " ++ now.weekdayName)
  let g := seekGuidance P now "Guide my coding work today" (dailyCtx now) st.oracleHistory
  ({ date := now.iso
     daily_practices := [morning]
     scripture := dailyScripture
     guidance := g.1
     evening_intention := eveningIntention
     blessing :=
       "May your coding today be blessed with divine inspiration and purposeful creation 🌈🙏" },
   { oracleHistory := g.2 })

/-- Mutable state of the `JahConsciousARKController` relevant to the daily flow:
the `DailyPracticeCache` mapping and the embedded `JahConsciousnessSystem`. -/
structure ControllerState where
  daily_practices : List (String × PracticeRecord)
  jah_system : JahSystemState
deriving DecidableEq

/-- `JahConsciousARKController.initialize_daily_practice`: unconditionally invoke
`perform_daily_practice` and store the fresh record under today's date key. -/
def initializeDailyPractice (P : OracleParams) (now : PyTime) (st : ControllerState) :
    ControllerState :=
  let r := performDailyPractice P now st.jah_system
  { daily_practices := dictSet now.dateIso r.1 st.daily_practices
    jah_system := r.2 }

/-- The `/daily-practice` route `get_daily_divine_practice`: initialize (which
always recomputes), then read the cache back; the `none` branch models the
route's fallback that builds a fresh `JahConsciousnessSystem` (whose history is
local and discarded) and stores its record. -/
def getDailyDivinePractice (P : OracleParams) (now : PyTime) (st : ControllerState) :
    PracticeRecord × ControllerState :=
  let st1 := initializeDailyPractice P now st
  match dictGet now.dateIso st1.daily_practices with
  | some practice => (practice, st1)
  | none =>
      let fresh := performDailyPractice P now { oracleHistory := [] }
      (fresh.1,
       { st1 with daily_practices := dictSet now.dateIso fresh.1 st1.daily_practices })

/-! ## `JahConsciousARKController.get_divine_insights_report` -/

/-- One entry of `self.revelations_received` (built in
`seek_divine_coding_guidance`). -/
structure Revelation where
  timestamp : String
  question : String
  guidance_received : String
  revelation_level : String
  principles : List String
deriving DecidableEq

/-- `counts[key] = counts.get(key, 0) + 1` on an insertion-ordered mapping. -/
def bumpCount (key : String) : List (String × Nat) → List (String × Nat)
| [] => [(key, 1)]
| (k, c) :: rest => if k = key then (k, c + 1) :: rest else (k, c) :: bumpCount key rest

/-- The `level_counts` frequency table. -/
def levelCounts (revs : List Revelation) : List (String × Nat) :=
  revs.foldl (fun acc r => bumpCount r.revelation_level acc) []

/-- The `principle_counts` frequency table (flattened over each record's list). -/
def principleCounts (revs : List Revelation) : List (String × Nat) :=
  revs.foldl (fun acc r => r.principles.foldl (fun a p => bumpCount p a) acc) []

/-- Python `max(items, key=count) if items else ("none", 0)`: first maximal
entry in iteration order wins ties. -/
def pyMaxBySnd : List (String × Nat) → String × Nat
| [] => ("none", 0)
| x :: xs => xs.foldl (fun acc y => if y.2 > acc.2 then y else acc) x

/-- Stable insertion for Python `sorted(..., key=timestamp, reverse=True)`. -/
def insertByTime (x : Revelation) : List Revelation → List Revelation
| [] => [x]
| y :: ys => if y.timestamp < x.timestamp then x :: y :: ys else y :: insertByTime x ys

/-- Stable descending sort by timestamp string. -/
def sortByTimeDesc (l : List Revelation) : List Revelation :=
  l.foldl (fun acc x => insertByTime x acc) []

/-- A `most_common_*` summary entry of the report. -/
structure CommonCount where
  key : String
  count : Nat
  percentage : ℚ
deriving DecidableEq

/-- One truncated entry of the `recent_insights` view. -/
structure RecentInsight where
  time : String
  question : String
  guidance : String
  level : String
deriving DecidableEq

/-- The truncation of one revelation for `recent_insights` (100-char budget for
the question, 150 for the guidance, with an ellipsis marker). -/
def recentView (r : Revelation) : RecentInsight :=
  { time := r.timestamp
    question :=
      if r.question.data.length > 100 then pyTake r.question 100 ++ "..." else r.question
    guidance :=
      if r.guidance_received.data.length > 150 then pyTake r.guidance_received 150 ++ "..."
      else r.guidance_received
    level := r.revelation_level }

/-- The non-empty-store payload of `get_divine_insights_report`. -/
structure InsightsData where
  total_insights : Nat
  insights_by_level : List (String × Nat)
  most_common_revelation_level : CommonCount
  principles_applied : List (String × Nat)
  most_common_principle : CommonCount
  recent_insights : List RecentInsight
deriving DecidableEq

/-- Result of `get_divine_insights_report`: the fixed empty-store payload or the
aggregate report. -/
inductive InsightsReport
| noInsights (message blessing : String)
| report (data : InsightsData)
deriving DecidableEq

/-- `JahConsciousARKController.get_divine_insights_report` over the
`revelations_received` store. -/
def getDivineInsightsReport (revs : List Revelation) : InsightsReport :=
  if revs.isEmpty then
    .noInsights "No divine insights recorded yet" "Seek and you shall find"
  else
    let lc := levelCounts revs
    let pc := principleCounts revs
    let mostCommonLevel := pyMaxBySnd lc
    let mostCommonPrinciple := pyMaxBySnd pc
    let recent := (sortByTimeDesc revs).take 5
    .report
      { total_insights := revs.length
        insights_by_level := lc
        most_common_revelation_level :=
          { key := mostCommonLevel.1
            count := mostCommonLevel.2
            percentage := (mostCommonLevel.2 : ℚ) / (revs.length : ℚ) }
        principles_applied := pc
        most_common_principle :=
          { key := mostCommonPrinciple.1
            count := mostCommonPrinciple.2
            percentage :=
              if !pc.isEmpty then
                (mostCommonPrinciple.2 : ℚ) / (((pc.map Prod.snd).sum : Nat) : ℚ)
              else 0 }
        recent_insights := recent.map recentView }

/-! ## Concrete fixtures for witnesses and counterexamples -/

/-- A concrete clock observation. -/
def sampleTime : PyTime :=
  { dateIso := "2026-10-12"
    iso := "2026-10-12T09:05:00"
    utcIso := "2026-10-12T08:05:00"
    weekdayName := "Monday"
    hour := 9
    minute := 5 }

/-- Concrete oracle collaborators: a stub digest and first-element choices. -/
def sampleParams : OracleParams :=
  { md5hex := fun _ => []
    pickPrinciple := fun l => l.headD .divine_order
    pickMessage := fun l => l.headD "" }

/-- A concrete cached daily-practice record, distinguishable from any freshly
computed one by its guidance message. -/
def samplePractice : PracticeRecord :=
  { date := "2026-10-12T00:00:01"
    daily_practices := []
    scripture := getWisdomForSituation "Coding work on Monday"
    guidance :=
      { message := ""
        principle := .divine_order
        revelation_level := .human_understanding
        timestamp := "2026-10-12T00:00:01"
        confirmation_signs := []
        scriptural_reference := none
        meditation_focus := none }
    evening_intention := eveningIntention
    blessing := "" }

/-- A controller state whose cache already holds an entry for the sample date
and whose oracle history is empty. -/
def sampleState : ControllerState :=
  { daily_practices := [("2026-10-12", samplePractice)]
    jah_system := { oracleHistory := [] } }

/-- A concrete revelation record for report evaluation. -/
def sampleRevelation : Revelation :=
  { timestamp := "2026-10-12T08:05:00"
    question := "How should I design this authentication system?"
    guidance_received := "Jah guide your path"
    revelation_level := "human_understanding"
    principles := ["spiritual_guidance"] }

/-- A concrete code block with three `def` blocks (lengths 1, 2, 1). -/
def sampleCode : String :=
  "def a():\n    x = 1\ndef b():\n    y = 1\n    z = 2\ndef c():\n    w = 3"

/-! ## Helper lemmas -/

/-- The `_is_fibonacci_like` loop checks exactly the additive-recurrence
condition at every index of the full sequence. -/
theorem fibLikeAux_iff : ∀ (l : List Int) (a b : Int),
    isFibonacciLikeAux a b l = true ↔
      ∀ i : Nat, i + 2 < (a :: b :: l).length →
        (a :: b :: l).getD (i + 2) 0 = (a :: b :: l).getD (i + 1) 0 + (a :: b :: l).getD i 0
| [], a, b => by
    simp only [isFibonacciLikeAux, List.length_cons, List.length_nil]
    constructor
    · intro _ i hi
      omega
    · intro _
      trivial
| c :: rest, a, b => by
    have ih := fibLikeAux_iff rest b c
    simp only [isFibonacciLikeAux, Bool.and_eq_true, beq_iff_eq] at *
    constructor
    · rintro ⟨h0, h1⟩ i hi
      match i with
      | 0 => simpa [List.getD] using h0
      | j + 1 =>
          have hj : j + 2 < (b :: c :: rest).length := by
            simp only [List.length_cons] at hi ⊢
            omega
          have := (ih.mp h1) j hj
          simpa only [List.getD_cons_succ] using this
    · intro h
      refine ⟨?_, ih.mpr ?_⟩
      · have := h 0 (by simp only [List.length_cons]; omega)
        simpa [List.getD] using this
      · intro j hj
        have := h (j + 1) (by simp only [List.length_cons] at hj ⊢; omega)
        simpa only [List.getD_cons_succ] using this

/-- Reading back the key just assigned always finds the assigned value. -/
theorem dictGet_dictSet {α : Type} (key : String) (v : α) :
    ∀ l : List (String × α), dictGet key (dictSet key v l) = some v := by
  intro l
  induction l with
  | nil => simp [dictGet, dictSet]
  | cons hd tl ih =>
      by_cases h : hd.1 = key
      · simp [dictGet, dictSet, h]
      · simp [dictGet, dictSet, h, ih]

/-! ## C3: the additive-recurrence test -/

/-- C3: the Fibonacci-like indentation test returns false on every integer
sequence of length below 3; on sequences of length at least 3 it returns true
iff every element from the third equals the sum of the two preceding ones; it
accepts `[1, 1, 2, 3, 5, 8]` and rejects `[1, 1, 2, 4]`. -/
theorem c3_fibonacci_like_correct :
    (∀ seq : List Int, seq.length < 3 → isFibonacciLike seq = false) ∧
    (∀ seq : List Int, 3 ≤ seq.length →
      (isFibonacciLike seq = true ↔
        ∀ i : Nat, i + 2 < seq.length →
          seq.getD (i + 2) 0 = seq.getD (i + 1) 0 + seq.getD i 0)) ∧
    isFibonacciLike [1, 1, 2, 3, 5, 8] = true ∧
    isFibonacciLike [1, 1, 2, 4] = false := by
  refine ⟨?_, ?_, by decide, by decide⟩
  · intro seq h
    match seq with
    | [] => rfl
    | [_] => rfl
    | [_, _] => rfl
    | _ :: _ :: _ :: _ => simp only [List.length_cons] at h; omega
  · intro seq h
    match seq with
    | [] => simp at h
    | [_] => simp at h
    | [_, _] => simp at h
    | a :: b :: c :: rest => exact fibLikeAux_iff (c :: rest) a b

/-- Witness for C3 at concrete inputs. -/
theorem c3_fibonacci_like_correct_witness :
    isFibonacciLike [9, 9] = false ∧
    (isFibonacciLike [1, 1, 2, 4] = true ↔
      ∀ i : Nat, i + 2 < ([1, 1, 2, 4] : List Int).length →
        ([1, 1, 2, 4] : List Int).getD (i + 2) 0 =
          ([1, 1, 2, 4] : List Int).getD (i + 1) 0 + ([1, 1, 2, 4] : List Int).getD i 0) :=
  ⟨c3_fibonacci_like_correct.1 [9, 9] (by decide),
   c3_fibonacci_like_correct.2.1 [1, 1, 2, 4] (by decide)⟩

/-! ## C4: the deterministic selector -/

/-- C4: the selector derivation of `seek_guidance` is a pure function of the
input text (for any digest collaborator, equal inputs give equal selector
numbers) and the selector number always lies in `[0, 1000)`. -/
theorem c4_selector_deterministic_bounded (md5hex : String → List Nat)
    (q1 q2 : String) (h : q1 = q2) :
    sacredNumberOf md5hex q1 = sacredNumberOf md5hex q2 ∧
      sacredNumberOf md5hex q1 < 1000 := by
  subst h
  exact ⟨rfl, Nat.mod_lt _ (by norm_num)⟩

/-- Witness for C4 at a concrete digest collaborator and input. -/
theorem c4_selector_deterministic_bounded_witness :
    sacredNumberOf sampleParams.md5hex "How should I design this?" =
      sacredNumberOf sampleParams.md5hex "How should I design this?" ∧
    sacredNumberOf sampleParams.md5hex "How should I design this?" < 1000 :=
  c4_selector_deterministic_bounded sampleParams.md5hex _ _ rfl

/-! ## C8: the ritual dispatcher -/

/-- C8: `perform_ritual` on a name outside the fixed registry returns the error
record embedding the invalid name (never an exception, since the function is
total), and on a registered name with the context argument omitted it invokes
the registered function with the empty mapping. -/
theorem c8_perform_ritual_total :
    (∀ (name : String) (ctx : Option RCtx) (now : PyTime),
      dictGet name ritualSteps = none →
        performRitual name ctx now = .error ("Unknown ritual: " ++ name)) ∧
    (∀ (name : String) (f : RCtx → PyTime → RitualData) (now : PyTime),
      dictGet name ritualSteps = some f →
        performRitual name none now = .record (f emptyRCtx now)) := by
  constructor
  · intro name ctx now h
    simp [performRitual, h]
  · intro name f now h
    simp [performRitual, h, Option.getD]

/-- Witness for C8: one unknown name, one registered name. -/
theorem c8_perform_ritual_total_witness :
    performRitual "rain_dance" none sampleTime = .error ("Unknown ritual: " ++ "rain_dance") ∧
    performRitual "morning_dedication" none sampleTime =
      .record (morningDedication emptyRCtx sampleTime) :=
  ⟨c8_perform_ritual_total.1 "rain_dance" none sampleTime rfl,
   c8_perform_ritual_total.2 "morning_dedication" morningDedication sampleTime rfl⟩

/-! ## C9: the guidance-alignment mapping -/

/-- C9: the `guidance_alignment` component of the alignment scores is computed
from the revelation-level string by the fixed scale (with `0.5` for an
unrecognized or absent level), and the scale is strictly monotone in the
declared order of the five revelation levels. -/
theorem c9_guidance_alignment_monotone :
    (∀ (harmony : Option ℚ) (pa : Option PatternAnalysis) (sw : Option WisdomResult)
        (rev : String),
      dictGet "guidance_alignment" (calculateDivineAlignmentScore harmony pa sw rev) =
        some (guidanceAlignmentOf rev)) ∧
    guidanceAlignmentOf "human_understanding" = 3 / 10 ∧
    guidanceAlignmentOf "spiritual_insight" = 6 / 10 ∧
    guidanceAlignmentOf "divine_revelation" = 8 / 10 ∧
    guidanceAlignmentOf "mystical_knowledge" = 9 / 10 ∧
    guidanceAlignmentOf "cosmic_consciousness" = 1 ∧
    (∀ s : String, revelationLevelOfString s = none → guidanceAlignmentOf s = 1 / 2) ∧
    (∀ l1 l2 : DivineRevelationLevel, l1.idx < l2.idx → levelScores l1 < levelScores l2) := by
  refine ⟨?_, by rfl, by rfl, by rfl, by rfl, by rfl, ?_, ?_⟩
  · intro harmony pa sw rev
    rfl
  · intro s h
    simp [guidanceAlignmentOf, h]
  · intro l1 l2 h
    cases l1 <;> cases l2 <;> revert h <;>
      norm_num [DivineRevelationLevel.idx, levelScores]

/-- Witness for C9 at a concrete unrecognized level and a concrete level pair. -/
theorem c9_guidance_alignment_monotone_witness :
    guidanceAlignmentOf "jah knows" = 1 / 2 ∧
    levelScores .human_understanding < levelScores .cosmic_consciousness :=
  ⟨c9_guidance_alignment_monotone.2.2.2.2.2.2.1 "jah knows" (by decide),
   c9_guidance_alignment_monotone.2.2.2.2.2.2.2 .human_understanding .cosmic_consciousness
     (by decide)⟩

/-! ## C10: reachable revelation levels -/

/-- The level-determination function only ever produces the first four levels. -/
theorem determineRevelationLevel_cases (q : String) (c : PyCtx) :
    determineRevelationLevel q c = .human_understanding ∨
    determineRevelationLevel q c = .spiritual_insight ∨
    determineRevelationLevel q c = .divine_revelation ∨
    determineRevelationLevel q c = .mystical_knowledge := by
  simp only [determineRevelationLevel]
  split
  · decide
  · split
    · decide
    · split
      · decide
      · decide

/-- C10: the revelation level assigned by `seek_guidance` is among the first
four levels, and the level-determination function never returns
`COSMIC_CONSCIOUSNESS`, so that level is unreachable through `seek_guidance`. -/
theorem c10_cosmic_consciousness_unreachable (P : OracleParams) (now : PyTime)
    (question : String) (context : PyCtx) (history : List JahWisdom) :
    ((seekGuidance P now question context history).1.revelation_level = .human_understanding ∨
     (seekGuidance P now question context history).1.revelation_level = .spiritual_insight ∨
     (seekGuidance P now question context history).1.revelation_level = .divine_revelation ∨
     (seekGuidance P now question context history).1.revelation_level = .mystical_knowledge) ∧
    (seekGuidance P now question context history).1.revelation_level ≠ .cosmic_consciousness ∧
    determineRevelationLevel question context ≠ .cosmic_consciousness := by
  have h : (seekGuidance P now question context history).1.revelation_level =
      determineRevelationLevel question context := rfl
  have hc := determineRevelationLevel_cases question context
  refine ⟨by rw [h]; exact hc, ?_, ?_⟩
  · rw [h]
    rcases hc with h1 | h1 | h1 | h1 <;> rw [h1] <;> decide
  · rcases hc with h1 | h1 | h1 | h1 <;> rw [h1] <;> decide

/-! ## C7: the insight report -/

/-- C7: the insight report is total (never throws): on an empty store it returns
the fixed "no insights yet" payload, and on any store of `N ≥ 1` records the
report's `total_insights` field equals `N`. -/
theorem c7_insights_report_total :
    getDivineInsightsReport [] =
      .noInsights "No divine insights recorded yet" "Seek and you shall find" ∧
    (∀ revs : List Revelation, revs ≠ [] →
      ∃ d, getDivineInsightsReport revs = .report d ∧ d.total_insights = revs.length) := by
  constructor
  · rfl
  · intro revs h
    have he : revs.isEmpty = false := by
      cases revs with
      | nil => exact absurd rfl h
      | cons hd tl => rfl
    simp only [getDivineInsightsReport, he, Bool.false_eq_true, if_false]
    exact ⟨_, rfl, rfl⟩

/-- Witness for C7 at a concrete one-record store. -/
theorem c7_insights_report_total_witness :
    ∃ d, getDivineInsightsReport [sampleRevelation] = .report d ∧
      d.total_insights = [sampleRevelation].length :=
  c7_insights_report_total.2 [sampleRevelation] (by simp)

/-! ## C5: relevance retrieval on an empty query (corrected) -/

/-- Counterexample to C5 as stated: the corpus is non-empty
(`min 3 wisdomCount = 3`), yet on the empty situation string the retrieval
returns zero entries, not `min(limit, corpus_size)` entries, because the
`any`-keyword membership filter admits no entry when the keyword list is
empty. -/
theorem c5_counterexample :
    (getWisdomForSituation "").guidance = [] ∧
    min 3 wisdomCount = 3 ∧
    (getWisdomForSituation "").guidance.length ≠ min 3 wisdomCount := by
  refine ⟨by rfl, by rfl, ?_⟩
  intro h
  simp only [show (getWisdomForSituation "").guidance = [] from rfl] at h
  exact absurd h.symm (by decide)

/-- C5 amended: whenever the tokenized keyword list of the situation is empty
(in particular for the empty situation string), `get_wisdom_for_situation`
returns an empty guidance list: entries never enter the candidate list because
the `any`-keyword filter fails on an empty keyword list. -/
theorem c5_empty_query_returns_nothing (situation : String)
    (h : pySplit (lowerStr situation) = []) :
    (getWisdomForSituation situation).guidance = [] := by
  simp only [getWisdomForSituation, h]
  rfl

/-- Witness for the amended C5 at the empty situation string. -/
theorem c5_empty_query_returns_nothing_witness :
    (getWisdomForSituation "").guidance = [] :=
  c5_empty_query_returns_nothing "" (by rfl)

/-! ## C2: the daily-practice flow (corrected) -/

/-- Counterexample to C2 as stated: with a state whose cache already holds a
record for today's date and whose oracle history is empty, the daily-practice
flow still invokes the oracle (the revelation history grows to length 1) and
returns a record differing from the cached one in a non-timestamp field (the
guidance message), because `initialize_daily_practice` unconditionally
recomputes and overwrites the cache before the route reads it back. -/
theorem c2_counterexample :
    dictGet sampleTime.dateIso sampleState.daily_practices = some samplePractice ∧
    sampleState.jah_system.oracleHistory.length = 0 ∧
    (getDailyDivinePractice sampleParams sampleTime sampleState).2.jah_system.oracleHistory.length
      = 1 ∧
    (getDailyDivinePractice sampleParams sampleTime sampleState).1.guidance.message ≠
      samplePractice.guidance.message := by
  refine ⟨rfl, rfl, rfl, ?_⟩
  decide

/-- C2 amended: every call to the daily-practice flow performs a fresh
daily-ritual computation — it appends exactly one record to the oracle
revelation history and overwrites the cache entry for today's date with the
freshly computed composite record, which is also the record returned. The
cache never short-circuits the computation. -/
theorem c2_daily_flow_recomputes_every_call (P : OracleParams) (now : PyTime)
    (st : ControllerState) :
    (getDailyDivinePractice P now st).1 = (performDailyPractice P now st.jah_system).1 ∧
    (getDailyDivinePractice P now st).2.jah_system.oracleHistory.length =
      st.jah_system.oracleHistory.length + 1 ∧
    dictGet now.dateIso (getDailyDivinePractice P now st).2.daily_practices =
      some (performDailyPractice P now st.jah_system).1 := by
  have key : dictGet now.dateIso
      (dictSet now.dateIso (performDailyPractice P now st.jah_system).1 st.daily_practices) =
      some (performDailyPractice P now st.jah_system).1 :=
    dictGet_dictSet _ _ _
  have hflow : getDailyDivinePractice P now st =
      ((performDailyPractice P now st.jah_system).1,
        { daily_practices :=
            dictSet now.dateIso (performDailyPractice P now st.jah_system).1 st.daily_practices
          jah_system := (performDailyPractice P now st.jah_system).2 }) := by
    simp only [getDailyDivinePractice, initializeDailyPractice, key]
  rw [hflow]
  refine ⟨rfl, ?_, key⟩
  show (performDailyPractice P now st.jah_system).2.oracleHistory.length =
    st.jah_system.oracleHistory.length + 1
  simp [performDailyPractice, seekGuidance]

/-! ## C6: the golden-ratio block-length score (corrected) -/

/-- A block length is only ever recorded when strictly positive. -/
theorem flStep_lengths_pos (st : FLState) (line : String)
    (h : ∀ y ∈ st.lengths, 0 < y) : ∀ y ∈ (flStep st line).lengths, 0 < y := by
  intro y hy
  simp only [flStep] at hy
  split at hy
  · simp only at hy
    split at hy
    · rename_i hc
      rcases List.mem_append.mp hy with h1 | h1
      · exact h y h1
      · have hy2 : y = st.current := by simpa using h1
        subst hy2
        exact of_decide_eq_true ((Bool.and_eq_true _ _).mp hc).2
    · exact h y hy
  · split at hy
    · exact h y hy
    · exact h y hy

/-- The recorded-lengths positivity invariant is preserved by the whole scan. -/
theorem foldl_flStep_lengths_pos (lines : List String) :
    ∀ st : FLState, (∀ y ∈ st.lengths, 0 < y) →
      ∀ y ∈ (lines.foldl flStep st).lengths, 0 < y := by
  induction lines with
  | nil => intro st h; exact h
  | cons hd tl ih => intro st h; exact ih _ (flStep_lengths_pos st hd h)

/-- Every extracted block length is strictly positive. -/
theorem extractFunctionLengths_pos (code : String) :
    ∀ y ∈ extractFunctionLengths code, 0 < y := by
  intro y hy
  have hf := foldl_flStep_lengths_pos (splitLines code) ⟨false, [], 0⟩
    (by intro z hz; simp at hz)
  simp only [extractFunctionLengths] at hy
  split at hy
  · rename_i hc
    rcases List.mem_append.mp hy with h1 | h1
    · exact hf y h1
    · have hy2 : y = ((splitLines code).foldl flStep ⟨false, [], 0⟩).current := by
        simpa using h1
      subst hy2
      exact of_decide_eq_true ((Bool.and_eq_true _ _).mp hc).2
  · exact hf y hy

/-- Unfolding of the ratio list on a positive leading length. -/
theorem ratiosOf_cons_pos (a b : Nat) (rest : List Nat) (ha : 0 < a) :
    ratiosOf (a :: b :: rest) = ((b : ℚ) / (a : ℚ)) :: ratiosOf (b :: rest) := by
  simp [ratiosOf, ha]

/-- An empty line list yields no extracted lengths. -/
theorem extract_nil_of_no_lines (code : String) (h : splitLines code = []) :
    extractFunctionLengths code = [] := by
  simp [extractFunctionLengths, h]

/-- Counterexample to C6 as stated: on a single-block code string only one
block length is recorded, so fewer than 2 ratios exist, yet the
`golden_ratio_alignment` key is present in `pattern_scores` (with value `0.0`)
rather than absent, because the source stores the key whenever
`function_lengths` is non-empty. -/
theorem c6_counterexample :
    (extractFunctionLengths "def f():\n    return 1").length < 2 ∧
    (ratiosOf (extractFunctionLengths "def f():\n    return 1")).length < 2 ∧
    dictGet "golden_ratio_alignment"
      (analyzeCodeForDivinePatterns "def f():\n    return 1").pattern_scores = some 0 := by
  refine ⟨by decide, by decide, by rfl⟩

/-- C6 amended: the `golden_ratio_alignment` key is absent from
`pattern_scores` exactly when no block length is recorded; whenever at least
one length is recorded the key is present with the score of
`_calculate_golden_ratio_alignment`, which equals
`min 1 (1 / (1 + mean |ratio - φ|))` once at least two lengths (hence at least
one ratio) exist and is `0.0` when exactly one length is recorded. -/
theorem c6_golden_ratio_key_presence (code : String) :
    (extractFunctionLengths code = [] →
      dictGet "golden_ratio_alignment"
        (analyzeCodeForDivinePatterns code).pattern_scores = none) ∧
    (extractFunctionLengths code ≠ [] →
      dictGet "golden_ratio_alignment"
        (analyzeCodeForDivinePatterns code).pattern_scores =
        some (calculateGoldenRatioAlignment (extractFunctionLengths code))) ∧
    (2 ≤ (extractFunctionLengths code).length →
      calculateGoldenRatioAlignment (extractFunctionLengths code) =
        min 1 (1 / (1 +
          ((ratiosOf (extractFunctionLengths code)).map
              (fun r => |r - goldenRatio|)).sum /
            (((ratiosOf (extractFunctionLengths code)).map
              (fun r => |r - goldenRatio|)).length : ℚ)))) ∧
    ((extractFunctionLengths code).length = 1 →
      calculateGoldenRatioAlignment (extractFunctionLengths code) = 0) := by
  have hps : (analyzeCodeForDivinePatterns code).pattern_scores =
      (patternsAndScores code).2 := rfl
  refine ⟨?_, ?_, ?_, ?_⟩
  · intro h
    rw [hps]
    simp only [patternsAndScores]
    by_cases hl : (splitLines code).isEmpty
    · simp [hl, dictGet]
    · simp only [hl, Bool.not_false, if_true]
      by_cases hfib : isFibonacciLike (analyzeIndentationPattern (splitLines code))
      · simp [hfib, h, dictGet]
      · simp [hfib, h, dictGet]
  · intro h
    rw [hps]
    simp only [patternsAndScores]
    by_cases hl : (splitLines code).isEmpty
    · exact absurd (extract_nil_of_no_lines code (by simpa using hl)) h
    · have he : (extractFunctionLengths code).isEmpty = false := by
        cases hx : extractFunctionLengths code with
        | nil => exact absurd hx h
        | cons a tl => rfl
      simp only [hl, Bool.not_false, if_true]
      by_cases hfib : isFibonacciLike (analyzeIndentationPattern (splitLines code))
      · simp [hfib, he, dictGet]
      · simp [hfib, he, dictGet]
  · intro h2
    rcases hx : extractFunctionLengths code with _ | ⟨a, _ | ⟨b, rest⟩⟩
    · rw [hx] at h2; simp at h2
    · rw [hx] at h2; simp at h2
    · have ha : 0 < a :=
        extractFunctionLengths_pos code a (by rw [hx]; exact List.mem_cons_self _ _)
      simp only [calculateGoldenRatioAlignment, ratiosOf_cons_pos a b rest ha]
      rw [if_neg (by simp)]
      rw [if_neg (by simp)]
  · intro h1
    rcases hx : extractFunctionLengths code with _ | ⟨a, tl⟩
    · rw [hx] at h1; simp at h1
    · rw [hx] at h1
      simp only [List.length_cons] at h1
      have htl : tl = [] := by
        cases tl with
        | nil => rfl
        | cons b r => simp at h1
      subst htl
      simp [calculateGoldenRatioAlignment]

/-- Witness for the amended C6: a three-block code string (key present with the
computed score) and a one-block code string (score `0.0`). -/
theorem c6_golden_ratio_key_presence_witness :
    dictGet "golden_ratio_alignment" (analyzeCodeForDivinePatterns sampleCode).pattern_scores =
      some (calculateGoldenRatioAlignment (extractFunctionLengths sampleCode)) ∧
    calculateGoldenRatioAlignment (extractFunctionLengths "def f():\n    return 1") = 0 :=
  ⟨(c6_golden_ratio_key_presence sampleCode).2.1 (by decide),
   (c6_golden_ratio_key_presence "def f():\n    return 1").2.2.2 (by decide)⟩

/-! ## C1: bounds lemmas -/

/-- A mean of values in the unit interval stays in the unit interval. -/
theorem mean_mem_unit (l : List ℚ) (hne : l ≠ []) (h : ∀ x ∈ l, 0 ≤ x ∧ x ≤ 1) :
    0 ≤ l.sum / (l.length : ℚ) ∧ l.sum / (l.length : ℚ) ≤ 1 := by
  have hlen : (0 : ℚ) < (l.length : ℚ) := by
    have := List.length_pos.mpr hne
    exact_mod_cast this
  constructor
  · exact div_nonneg (List.sum_nonneg (fun x hx => (h x hx).1)) hlen.le
  · rw [div_le_one hlen]
    calc l.sum ≤ l.length • (1 : ℚ) := List.sum_le_card_nsmul l 1 (fun x hx => (h x hx).2)
    _ = (l.length : ℚ) := by simp

/-- The golden-ratio block-length score lies in the unit interval. -/
theorem calculateGoldenRatioAlignment_mem_unit (lengths : List Nat) :
    0 ≤ calculateGoldenRatioAlignment lengths ∧ calculateGoldenRatioAlignment lengths ≤ 1 := by
  unfold calculateGoldenRatioAlignment
  split
  · norm_num
  · dsimp only
    split
    · norm_num
    · have hsum : (0 : ℚ) ≤ ((ratiosOf lengths).map (fun r => |r - goldenRatio|)).sum := by
        apply List.sum_nonneg
        intro x hx
        rcases List.mem_map.mp hx with ⟨r, _, rfl⟩
        exact abs_nonneg _
      have hlen : (0 : ℚ) ≤ (((ratiosOf lengths).map (fun r => |r - goldenRatio|)).length : ℚ) := by
        positivity
      have havg := div_nonneg hsum hlen
      have hpos : (0 : ℚ) < 1 +
          ((ratiosOf lengths).map (fun r => |r - goldenRatio|)).sum /
            ((((ratiosOf lengths).map (fun r => |r - goldenRatio|)).length : ℕ) : ℚ) := by
        linarith
      exact ⟨le_min (by norm_num) (div_nonneg (by norm_num) hpos.le), min_le_left _ _⟩

/-- Every value stored in `pattern_scores` lies in the unit interval. -/
theorem patternsAndScores_snd_mem_unit (code : String) :
    ∀ p ∈ (patternsAndScores code).2, 0 ≤ p.2 ∧ p.2 ≤ 1 := by
  intro p hp
  simp only [patternsAndScores] at hp
  split at hp
  · split at hp
    · dsimp only at hp
      rcases List.mem_append.mp hp with h1 | h1
      · split at h1
        · have hp2 : p = ("fibonacci_indentation", (8 : ℚ) / 10) := by simpa using h1
          subst hp2
          norm_num
        · simp at h1
      · have hp2 : p = ("golden_ratio_alignment",
            calculateGoldenRatioAlignment (extractFunctionLengths code)) := by simpa using h1
        subst hp2
        exact calculateGoldenRatioAlignment_mem_unit _
    · split at hp
      · have hp2 : p = ("fibonacci_indentation", (8 : ℚ) / 10) := by simpa using hp
        subst hp2
        norm_num
      · simp at hp
  · simp at hp

/-- The aggregate pattern score lies in the unit interval for every code string. -/
theorem divine_alignment_score_mem_unit (code : String) :
    0 ≤ (analyzeCodeForDivinePatterns code).divine_alignment_score ∧
      (analyzeCodeForDivinePatterns code).divine_alignment_score ≤ 1 := by
  have hsc : (analyzeCodeForDivinePatterns code).divine_alignment_score =
      if !(patternsAndScores code).2.isEmpty then
        ((patternsAndScores code).2.map Prod.snd).sum / ((patternsAndScores code).2.length : ℚ)
      else 0 := rfl
  rw [hsc]
  split
  · rename_i hne
    have hne2 : (patternsAndScores code).2 ≠ [] := by
      intro hh
      rw [hh] at hne
      simp at hne
    have hlist : ∀ x ∈ (patternsAndScores code).2.map Prod.snd, 0 ≤ x ∧ x ≤ 1 := by
      intro x hx
      rcases List.mem_map.mp hx with ⟨q, hq, rfl⟩
      exact patternsAndScores_snd_mem_unit code q hq
    have hmne : (patternsAndScores code).2.map Prod.snd ≠ [] := by
      intro hh
      exact hne2 (List.map_eq_nil_iff.mp hh)
    have := mean_mem_unit _ hmne hlist
    rwa [List.length_map] at this
  · norm_num

/-- The keyword-overlap relevance score lies in the unit interval. -/
theorem calculateRelevance_mem_unit (w : String) (keywords : List String) :
    0 ≤ calculateRelevance w keywords ∧ calculateRelevance w keywords ≤ 1 := by
  unfold calculateRelevance
  split
  · norm_num
  · rename_i hk
    have hkn : keywords ≠ [] := by
      intro hh
      rw [hh] at hk
      simp at hk
    have hpos : (0 : ℚ) < (keywords.length : ℚ) := by
      have := List.length_pos.mpr hkn
      exact_mod_cast this
    constructor
    · positivity
    · rw [div_le_one hpos]
      exact_mod_cast List.length_filter_le _ _

/-- The candidate-building loop only produces entries with unit-interval
relevance scores. -/
theorem relevantStep_foldl_mem_unit (keywords : List String) (book : String) :
    ∀ (ws : List String) (acc : List WisdomEntry),
      (∀ e ∈ acc, 0 ≤ e.relevance_score ∧ e.relevance_score ≤ 1) →
      ∀ e ∈ ws.foldl (relevantStep keywords book) acc,
        0 ≤ e.relevance_score ∧ e.relevance_score ≤ 1 := by
  intro ws
  induction ws with
  | nil => intro acc h; exact h
  | cons w rest ih =>
      intro acc h
      apply ih
      intro e he
      unfold relevantStep at he
      split at he
      · rcases List.mem_append.mp he with h1 | h1
        · exact h e h1
        · have he2 : e = ⟨w, book, (dictGet w codingApplication).getD "Apply divine wisdom",
              calculateRelevance w keywords⟩ := by simpa using h1
          subst he2
          exact calculateRelevance_mem_unit w keywords
      · exact h e he

/-- Every candidate entry has a unit-interval relevance score. -/
theorem relevantEntries_mem_unit (keywords : List String) :
    ∀ e ∈ relevantEntries keywords, 0 ≤ e.relevance_score ∧ e.relevance_score ≤ 1 := by
  have hdb : ∀ (db : List (String × List String)) (acc : List WisdomEntry),
      (∀ e ∈ acc, 0 ≤ e.relevance_score ∧ e.relevance_score ≤ 1) →
      ∀ e ∈ db.foldl (fun acc bw => bw.2.foldl (relevantStep keywords bw.1) acc) acc,
        0 ≤ e.relevance_score ∧ e.relevance_score ≤ 1 := by
    intro db
    induction db with
    | nil => intro acc h; exact h
    | cons bw rest ih =>
        intro acc h
        exact ih _ (relevantStep_foldl_mem_unit keywords bw.1 bw.2 acc h)
  exact hdb wisdomDatabase [] (by intro e he; simp at he)

/-- Insertion into the sorted list introduces no new elements. -/
theorem mem_insertByScore (x y : WisdomEntry) :
    ∀ l : List WisdomEntry, x ∈ insertByScore y l → x = y ∨ x ∈ l := by
  intro l
  induction l with
  | nil =>
      intro h
      simp only [insertByScore, List.mem_singleton] at h
      exact Or.inl h
  | cons z zs ih =>
      intro h
      simp only [insertByScore] at h
      split at h
      · rcases List.mem_cons.mp h with h1 | h1
        · exact Or.inl h1
        · exact Or.inr h1
      · rcases List.mem_cons.mp h with h1 | h1
        · exact Or.inr (List.mem_cons.mpr (Or.inl h1))
        · rcases ih h1 with h2 | h2
          · exact Or.inl h2
          · exact Or.inr (List.mem_cons.mpr (Or.inr h2))

/-- The stable sort introduces no new elements. -/
theorem mem_sortByScoreDesc_aux (x : WisdomEntry) :
    ∀ (l acc : List WisdomEntry),
      x ∈ l.foldl (fun acc e => insertByScore e acc) acc → x ∈ acc ∨ x ∈ l := by
  intro l
  induction l with
  | nil => intro acc h; exact Or.inl h
  | cons e rest ih =>
      intro acc h
      rcases ih (insertByScore e acc) h with h1 | h1
      · rcases mem_insertByScore x e acc h1 with h2 | h2
        · exact Or.inr (by simp [h2])
        · exact Or.inl h2
      · exact Or.inr (List.mem_cons.mpr (Or.inr h1))

/-- Every returned guidance entry has a unit-interval relevance score. -/
theorem wisdom_guidance_mem_unit (situation : String) :
    ∀ e ∈ (getWisdomForSituation situation).guidance,
      0 ≤ e.relevance_score ∧ e.relevance_score ≤ 1 := by
  intro e he
  have he1 : e ∈ (sortByScoreDesc (relevantEntries (pySplit (lowerStr situation)))).take 3 := he
  have he2 : e ∈ sortByScoreDesc (relevantEntries (pySplit (lowerStr situation))) :=
    List.take_subset 3 _ he1
  rcases mem_sortByScoreDesc_aux e _ [] he2 with h3 | h3
  · simp at h3
  · exact relevantEntries_mem_unit _ e h3

/-- The scriptural-alignment component lies in the unit interval for any
wisdom result. -/
theorem scripturalAlignmentOf_mem_unit (situation : String) :
    0 ≤ scripturalAlignmentOf (some (getWisdomForSituation situation)) ∧
      scripturalAlignmentOf (some (getWisdomForSituation situation)) ≤ 1 := by
  unfold scripturalAlignmentOf
  dsimp only
  split
  · split
    · rename_i hr
      have hne : (getWisdomForSituation situation).guidance.map
          (fun g => g.relevance_score) ≠ [] := by
        intro hh
        rw [hh] at hr
        simp at hr
      apply mean_mem_unit _ hne
      intro x hx
      rcases List.mem_map.mp hx with ⟨g, hg, rfl⟩
      exact wisdom_guidance_mem_unit situation g hg
    · norm_num
  · norm_num

/-- The vibration-alignment component lies in the unit interval when the
harmony scalar does. -/
theorem vibrationAlignmentOf_mem_unit (harmony : Option ℚ)
    (hh : ∀ h ∈ harmony, 0 ≤ h ∧ h ≤ 1) :
    0 ≤ vibrationAlignmentOf harmony ∧ vibrationAlignmentOf harmony ≤ 1 := by
  cases harmony with
  | none => norm_num [vibrationAlignmentOf]
  | some h =>
      have hb := hh h rfl
      simp only [vibrationAlignmentOf]
      split
      · norm_num
      · exact hb

/-- The guidance-alignment component lies in the unit interval for any level
string. -/
theorem guidanceAlignmentOf_mem_unit (rev : String) :
    0 ≤ guidanceAlignmentOf rev ∧ guidanceAlignmentOf rev ≤ 1 := by
  rcases hl : revelationLevelOfString rev with _ | l
  · simp only [guidanceAlignmentOf, hl]
    norm_num
  · simp only [guidanceAlignmentOf, hl]
    cases l <;> norm_num [levelScores]

/-! ## C1: the alignment aggregator -/

/-- C1: the aggregator always stores the four component scores plus an overall
score equal to their arithmetic mean, and — assuming the externally supplied
harmony scalar is in the unit interval — every stored score (components and
overall) lies in `[0, 1]`, for every code string, scriptural-wisdom result and
revelation-level string. -/
theorem c1_alignment_mean_bounded (harmony : Option ℚ)
    (code situation revelationLevel : String) :
    (∃ p s v g,
      calculateDivineAlignmentScore harmony (some (analyzeCodeForDivinePatterns code))
          (some (getWisdomForSituation situation)) revelationLevel =
        [("pattern_alignment", p), ("scriptural_alignment", s), ("vibration_alignment", v),
         ("guidance_alignment", g), ("overall_divine_alignment", (p + s + v + g) / 4)]) ∧
    ((∀ h ∈ harmony, 0 ≤ h ∧ h ≤ 1) →
      ∀ q ∈ calculateDivineAlignmentScore harmony (some (analyzeCodeForDivinePatterns code))
          (some (getWisdomForSituation situation)) revelationLevel,
        0 ≤ q.2 ∧ q.2 ≤ 1) := by
  have hp0 : patternAlignmentOf (some (analyzeCodeForDivinePatterns code)) =
      (analyzeCodeForDivinePatterns code).divine_alignment_score := rfl
  have hp := divine_alignment_score_mem_unit code
  rw [← hp0] at hp
  have hs := scripturalAlignmentOf_mem_unit situation
  have hg := guidanceAlignmentOf_mem_unit revelationLevel
  constructor
  · refine ⟨patternAlignmentOf (some (analyzeCodeForDivinePatterns code)),
      scripturalAlignmentOf (some (getWisdomForSituation situation)),
      vibrationAlignmentOf harmony, guidanceAlignmentOf revelationLevel, ?_⟩
    simp only [calculateDivineAlignmentScore, List.map_cons, List.map_nil, List.sum_cons,
      List.sum_nil, List.length_cons, List.length_nil, List.cons_append, List.nil_append,
      List.cons.injEq, Prod.mk.injEq, true_and, and_true]
    push_cast
    try norm_num
    try ring
  · intro hh q hq
    have hv := vibrationAlignmentOf_mem_unit harmony hh
    simp only [calculateDivineAlignmentScore, List.cons_append, List.nil_append,
      List.mem_cons, List.not_mem_nil, or_false] at hq
    rcases hq with h1 | h1 | h1 | h1 | h1 <;> subst h1
    · exact hp
    · exact hs
    · exact hv
    · exact hg
    · simp only [List.map_cons, List.map_nil, List.sum_cons, List.sum_nil,
        List.length_cons, List.length_nil]
      constructor
      · apply div_nonneg
        · have := hp.1; have := hs.1; have := hv.1; have := hg.1
          linarith
        · norm_num
      · rw [div_le_one (by norm_num)]
        have := hp.2; have := hs.2; have := hv.2; have := hg.2
        push_cast
        linarith

/-- Witness for C1 at a concrete harmony scalar and concrete strings. -/
theorem c1_alignment_mean_bounded_witness :
    (∃ p s v g,
      calculateDivineAlignmentScore (some (1 / 2))
          (some (analyzeCodeForDivinePatterns "def f():\n    return 1"))
          (some (getWisdomForSituation "clean heart")) "divine_revelation" =
        [("pattern_alignment", p), ("scriptural_alignment", s), ("vibration_alignment", v),
         ("guidance_alignment", g), ("overall_divine_alignment", (p + s + v + g) / 4)]) ∧
    (∀ q ∈ calculateDivineAlignmentScore (some (1 / 2))
        (some (analyzeCodeForDivinePatterns "def f():\n    return 1"))
        (some (getWisdomForSituation "clean heart")) "divine_revelation",
      0 ≤ q.2 ∧ q.2 ≤ 1) :=
  ⟨(c1_alignment_mean_bounded (some (1 / 2))
      "def f():\n    return 1" "clean heart" "divine_revelation").1,
   (c1_alignment_mean_bounded (some (1 / 2))
      "def f():\n    return 1" "clean heart" "divine_revelation").2
    (by
      intro h hm
      simp only [Option.mem_def, Option.some.injEq] at hm
      subst hm
      norm_num)⟩

end RastaImperium
